import Mathlib

/-!
Verification of the pipeline driver in `src/main.py` (the `go` function and
the `_steps` registry) via a shallow embedding in Lean.

Modelling conventions:
- Python `str.split(",")` is modelled by `pySplit ','` (split at every
  occurrence of the separator, keeping empty fields, exactly as Python does).
- The body of `go` is a fixed sequence of six guarded blocks
  (lines 35-135), each of the form `if name in active_steps: ...`;
  the order of the blocks in the source is `registry`.
- The `with tempfile.TemporaryDirectory() as tmp_dir:` statement (line 32)
  is modelled with bracket semantics: a `tmpCreate` event before the body,
  a `tmpRemove` event after it on every exit path (normal or exceptional),
  and removal deletes every file whose path lies under the directory.
- A failing external invocation (`mlflow.run` raising) is modelled by an
  oracle `fails : String → Bool`; when the invocation of a block fails, the
  exception propagates, so no later block runs, but the `with` cleanup
  still fires.
- The driver never calls `os.chdir`, so `os.path.abspath("rf_config.json")`
  (line 102) resolves against the process working directory `cwd` (the
  run directory), not against `tmp_dir`.
-/

namespace Pipeline

/-- Model of Python `str.split(sep)` for a one-character separator:
splits at every occurrence, keeps empty fields. Worker over the character
list, accumulating the current field in reverse. -/
def splitAux (sep : Char) : List Char → List Char → List String
  | [], acc => [String.mk acc.reverse]
  | c :: cs, acc =>
    if c = sep then String.mk acc.reverse :: splitAux sep cs []
    else splitAux sep cs (c :: acc)

/-- Model of Python `s.split(sep)` for a one-character separator. -/
def pySplit (sep : Char) (s : String) : List String :=
  splitAux sep s.data []

/-- The `_steps` list of `src/main.py` lines 9-17: the default step sequence.
`test_regression_model` is commented out there, hence absent here. -/
def _steps : List String :=
  ["download", "basic_cleaning", "data_check", "data_split", "train_random_forest"]

/-- The six guarded blocks in the body of `go`, in source order
(lines 35, 50, 67, 83, 100, 124). This is the canonical registry sequence. -/
def registry : List String :=
  ["download", "basic_cleaning", "data_check", "data_split", "train_random_forest",
   "test_regression_model"]

/-- Line 29 of `src/main.py`:
`active_steps = steps_par.split(",") if steps_par != "all" else _steps`. -/
def active_steps (steps_par : String) : List String :=
  if steps_par ≠ "all" then pySplit ',' steps_par else _steps

/-- Line 102: `rf_config_path = os.path.abspath("rf_config.json")`.
`abspath` resolves against the current working directory; `go` never
changes directory into `tmp_dir`, so the path is `cwd/rf_config.json`. -/
def rf_config_path (cwd : String) : String :=
  cwd ++ "/rf_config.json"

/-- Whether path `p` lies strictly inside directory `dir`, decided on the
character lists of the two paths. -/
def isUnder (dir p : String) : Bool :=
  (dir ++ "/").data.isPrefixOf p.data

/-- Observable actions of one driver invocation, in order. -/
inductive Event where
  | tmpCreate (dir : String)
  | writeFile (path : String)
  | stepStart (name : String)
  | tmpRemove (dir : String)
deriving DecidableEq

/-- Events emitted by one guarded block before/at its external invocation:
the `train_random_forest` block first serializes the hyperparameter file
(lines 102-104), then invokes; every other block just invokes. -/
def blockEvents (cwd : String) (s : String) : List Event :=
  if s = "train_random_forest" then
    [Event.writeFile (rf_config_path cwd), Event.stepStart s]
  else
    [Event.stepStart s]

/-- Run the guarded blocks in order. `fails s = true` means the external
invocation of step `s` raises; the exception propagates, so the remaining
blocks do not run. Returns the emitted events and the success flag. -/
def runSeq (fails : String → Bool) (cwd : String) : List String → List Event × Bool
  | [] => ([], true)
  | s :: rest =>
    if fails s then (blockEvents cwd s, false)
    else
      let r := runSeq fails cwd rest
      (blockEvents cwd s ++ r.1, r.2)

/-- The blocks of `go` whose guard `name in active_steps` holds,
in source (registry) order. -/
def bodyOrder (active : List String) : List String :=
  registry.filter (fun s => decide (s ∈ active))

/-- One invocation of `go` (lines 28-135): resolve the active steps from
the `main.steps` string, then run the guarded blocks inside the
`TemporaryDirectory` bracket. The `tmpRemove` event fires on both the
normal and the exceptional exit path of the `with` statement. -/
def goTrace (fails : String → Bool) (cwd tmp_dir : String) (steps_par : String) :
    List Event × Bool :=
  let r := runSeq fails cwd (bodyOrder (active_steps steps_par))
  (Event.tmpCreate tmp_dir :: r.1 ++ [Event.tmpRemove tmp_dir], r.2)

/-- Scalar configuration value as read from the configuration document. -/
inductive CVal where
  | s (v : String)
  | i (n : Int)
  | f (q : ℚ)
deriving DecidableEq

/-- Value occurring in a parameters dictionary passed to `mlflow.run`:
either a Python string literal, a configuration value passed through
unchanged, or a configuration value wrapped in `str(...)`. -/
inductive PVal where
  | lit (s : String)
  | raw (v : CVal)
  | coerced (v : CVal)
deriving DecidableEq

/-- Whether a parameter value is a string at the point of invocation. -/
def isStringValued : PVal → Bool
  | PVal.lit _ => true
  | PVal.coerced _ => true
  | PVal.raw (CVal.s _) => true
  | PVal.raw _ => false

/-- JSON value of the flat hyperparameter document (`modeling.random_forest`
holds numbers and strings). -/
inductive JVal where
  | jnum (q : ℚ)
  | jstr (s : String)
deriving DecidableEq

/-- The configuration fields `go` reads (spec section 6; `config[...]`
accesses in `src/main.py`). `main_steps` is the requested step string. -/
structure Config where
  main_project_name : String
  main_experiment_name : String
  main_steps : String
  main_components_repository : String
  etl_sample : CVal
  etl_min_price : CVal
  etl_max_price : CVal
  data_check_kl_threshold : CVal
  modeling_test_size : CVal
  modeling_random_seed : CVal
  modeling_stratify_by : CVal
  modeling_val_size : CVal
  modeling_max_tfidf_features : CVal
  modeling_random_forest : List (String × JVal)
deriving DecidableEq

/-- The `parameters` dictionary each guarded block passes to `mlflow.run`,
transcribed from lines 41-46, 56-63, 73-79, 90-96, 112-120, 131-134 of
`src/main.py`. `PVal.coerced` marks exactly the values wrapped in `str(...)`
in the source; `PVal.raw` marks configuration values passed unchanged. -/
def stepParams (c : Config) (cwd : String) : String → List (String × PVal)
  | "download" =>
    [("sample", PVal.raw c.etl_sample),
     ("artifact_name", PVal.lit "sample.csv"),
     ("artifact_type", PVal.lit "raw_data"),
     ("artifact_description", PVal.lit "Raw file as downloaded")]
  | "basic_cleaning" =>
    [("input_artifact", PVal.lit "sample.csv:latest"),
     ("output_artifact", PVal.lit "clean_sample.csv"),
     ("output_type", PVal.lit "clean_data"),
     ("output_description", PVal.lit "Data after basic cleaning"),
     ("min_price", PVal.raw c.etl_min_price),
     ("max_price", PVal.raw c.etl_max_price)]
  | "data_check" =>
    [("csv", PVal.lit "clean_sample.csv:latest"),
     ("ref", PVal.lit "clean_sample.csv:reference"),
     ("kl_threshold", PVal.raw c.data_check_kl_threshold),
     ("min_price", PVal.raw c.etl_min_price),
     ("max_price", PVal.raw c.etl_max_price)]
  | "data_split" =>
    [("input", PVal.lit "clean_sample.csv:latest"),
     ("test_size", PVal.coerced c.modeling_test_size),
     ("random_seed", PVal.coerced c.modeling_random_seed),
     ("stratify_by", PVal.raw c.modeling_stratify_by)]
  | "train_random_forest" =>
    [("trainval_artifact", PVal.lit "trainval_data.csv:latest"),
     ("val_size", PVal.coerced c.modeling_val_size),
     ("random_seed", PVal.coerced c.modeling_random_seed),
     ("stratify_by", PVal.raw c.modeling_stratify_by),
     ("rf_config", PVal.lit (rf_config_path cwd)),
     ("max_tfidf_features", PVal.coerced c.modeling_max_tfidf_features),
     ("output_artifact", PVal.lit "random_forest_export")]
  | "test_regression_model" =>
    [("mlflow_model", PVal.lit "random_forest_export:prod"),
     ("test_dataset", PVal.lit "test_data.csv:latest")]
  | _ => []

/-- The `run_name` given to `mlflow.start_run` around the external invocation
of each block, or `none` when the block has no such wrapper. The `download`
block (lines 35-47) calls `mlflow.run` directly with no `start_run`
wrapper; the other five blocks wrap it (lines 51, 68, 84, 107, 125). -/
def stepRunName : String → Option String
  | "basic_cleaning" => some "basic_cleaning"
  | "data_check" => some "data_check"
  | "data_split" => some "data_split"
  | "train_random_forest" => some "train_random_forest"
  | "test_regression_model" => some "test_regression_model"
  | _ => none

/-- Token stream of a serialized flat JSON document, the granularity at
which `json.dump` and `json.load` are modelled. -/
inductive JTok where
  | lbrace
  | rbrace
  | comma
  | colon
  | tstr (s : String)
  | tnum (q : ℚ)
deriving DecidableEq

/-- Serialization of one JSON scalar value. -/
def dumpVal : JVal → JTok
  | JVal.jnum q => JTok.tnum q
  | JVal.jstr s => JTok.tstr s

/-- Serialization of the comma-separated `key: value` members of a flat
JSON object, as `json.dump` writes them. -/
def dumpPairs : List (String × JVal) → List JTok
  | [] => []
  | [(k, v)] => [JTok.tstr k, JTok.colon, dumpVal v]
  | (k, v) :: r :: rs =>
    JTok.tstr k :: JTok.colon :: dumpVal v :: JTok.comma :: dumpPairs (r :: rs)

/-- Model of `json.dump(dict(...), fp)` for a flat mapping (line 104):
the document written to the side file. -/
def dumpObj (m : List (String × JVal)) : List JTok :=
  JTok.lbrace :: dumpPairs m ++ [JTok.rbrace]

/-- Parse one JSON scalar value. -/
def parseVal : JTok → Option JVal
  | JTok.tstr s => some (JVal.jstr s)
  | JTok.tnum q => some (JVal.jnum q)
  | _ => none

/-- Parse the members of a flat JSON object, fuelled by the token count. -/
def parsePairs : Nat → List JTok → Option (List (String × JVal) × List JTok)
  | 0, _ => none
  | fuel + 1, toks =>
    match toks with
    | JTok.tstr k :: JTok.colon :: t :: rest =>
      match parseVal t with
      | none => none
      | some v =>
        match rest with
        | JTok.comma :: rest2 =>
          match parsePairs fuel rest2 with
          | some (ps, r) => some ((k, v) :: ps, r)
          | none => none
        | _ => some ([(k, v)], rest)
    | _ => none

/-- Model of `json.load` on a serialized flat object: recover the mapping,
or fail on a malformed document. -/
def loads (toks : List JTok) : Option (List (String × JVal)) :=
  match toks with
  | JTok.lbrace :: rest =>
    if rest = [JTok.rbrace] then some []
    else
      match parsePairs rest.length rest with
      | some (ps, [JTok.rbrace]) => some ps
      | _ => none
  | _ => none

/-- Content of the hyperparameter side file written by the training block:
`json.dump(dict(config["modeling"]["random_forest"].items()), fp)`. -/
def rfFileContent (c : Config) : List JTok :=
  dumpObj c.modeling_random_forest

/-- Names of the steps whose external invocation was started, in order. -/
def startedOf (es : List Event) : List String :=
  es.filterMap (fun e => match e with | Event.stepStart s => some s | _ => none)

/-- Paths written during the invocation. -/
def writesOf (es : List Event) : List String :=
  es.filterMap (fun e => match e with | Event.writeFile p => some p | _ => none)

/-- Files still existing after the driver returns: the `TemporaryDirectory`
cleanup removes exactly the files under `tmp_dir`. -/
def filesAfter (es : List Event) (tmp_dir : String) : List String :=
  (writesOf es).filter (fun p => !(isUnder tmp_dir p))

/-- A concrete configuration with field values of the shapes the project
configuration uses, for instantiating concrete statements. -/
def cfg0 : Config where
  main_project_name := "nyc_airbnb"
  main_experiment_name := "development"
  main_steps := "all"
  main_components_repository := "https://github.com/example/components"
  etl_sample := CVal.s "sample1.csv"
  etl_min_price := CVal.i 10
  etl_max_price := CVal.i 350
  data_check_kl_threshold := CVal.f (2 / 10)
  modeling_test_size := CVal.f (2 / 10)
  modeling_random_seed := CVal.i 42
  modeling_stratify_by := CVal.s "neighbourhood_group"
  modeling_val_size := CVal.f (2 / 10)
  modeling_max_tfidf_features := CVal.i 5
  modeling_random_forest :=
    [("n_estimators", JVal.jnum 100), ("max_depth", JVal.jnum 15),
     ("min_samples_split", JVal.jnum 4), ("min_samples_leaf", JVal.jnum 3),
     ("n_jobs", JVal.jnum (-1)), ("criterion", JVal.jstr "squared_error"),
     ("max_features", JVal.jnum (1 / 2))]

theorem startedOf_append (a b : List Event) :
    startedOf (a ++ b) = startedOf a ++ startedOf b := by
  simp [startedOf]

theorem startedOf_block (cwd s : String) : startedOf (blockEvents cwd s) = [s] := by
  by_cases h : s = "train_random_forest" <;> simp [blockEvents, h, startedOf]

/-- The steps started by the block sequence: all steps up to the first failing
one, then the failing one itself, then nothing. -/
theorem runSeq_started (fails : String → Bool) (cwd : String) (order : List String) :
    startedOf (runSeq fails cwd order).1
      = order.takeWhile (fun s => !fails s)
        ++ (order.dropWhile (fun s => !fails s)).take 1 := by
  induction order with
  | nil => simp [runSeq, startedOf]
  | cons s rest ih =>
    by_cases h : fails s
    · simp [runSeq, h, startedOf_block, List.takeWhile, List.dropWhile]
    · simp [runSeq, h, startedOf_append, startedOf_block, ih, List.takeWhile,
        List.dropWhile]

/-- The block sequence succeeds exactly when no executed step fails. -/
theorem runSeq_ok (fails : String → Bool) (cwd : String) (order : List String) :
    (runSeq fails cwd order).2 = order.all (fun s => !fails s) := by
  induction order with
  | nil => rfl
  | cons s rest ih => by_cases h : fails s <;> simp [runSeq, h, ih]

theorem goTrace_started (fails : String → Bool) (cwd tmp sp : String) :
    startedOf (goTrace fails cwd tmp sp).1
      = startedOf (runSeq fails cwd (bodyOrder (active_steps sp))).1 := by
  simp [goTrace, startedOf]

theorem goTrace_ok (fails : String → Bool) (cwd tmp sp : String) :
    (goTrace fails cwd tmp sp).2
      = (runSeq fails cwd (bodyOrder (active_steps sp))).2 :=
  rfl

theorem takeDrop_sublist (p : String → Bool) (l : List String) :
    List.Sublist (l.takeWhile p ++ (l.dropWhile p).take 1) l := by
  have h1 : List.Sublist ((l.dropWhile p).take 1) (l.dropWhile p) :=
    List.take_sublist 1 _
  have h2 := h1.append_left (l.takeWhile p)
  rw [List.takeWhile_append_dropWhile] at h2
  exact h2

theorem bodyOrder_sublist (active : List String) :
    List.Sublist (bodyOrder active) registry :=
  List.filter_sublist _

/-- Whatever the requested string and the failure pattern, the started steps
form a sublist of the registry sequence. -/
theorem go_started_sublist (fails : String → Bool) (cwd tmp sp : String) :
    List.Sublist (startedOf (goTrace fails cwd tmp sp).1) registry := by
  rw [goTrace_started, runSeq_started]
  exact (takeDrop_sublist _ _).trans (bodyOrder_sublist _)

/-- With no failures, the started steps are exactly the guarded blocks whose
guard holds, in registry order. -/
theorem go_started_noFail (cwd tmp sp : String) :
    startedOf (goTrace (fun _ => false) cwd tmp sp).1 = bodyOrder (active_steps sp) := by
  rw [goTrace_started, runSeq_started]
  have ht : ∀ l : List String, l.takeWhile (fun s => !(fun _ => false) s) = l := by
    intro l; induction l <;> simp [List.takeWhile, *]
  have hd : ∀ l : List String, l.dropWhile (fun s => !(fun _ => false) s) = [] := by
    intro l; induction l <;> simp [List.dropWhile, *]
  rw [ht, hd]
  simp

theorem blockEvents_shape (cwd s : String) :
    ∀ e ∈ blockEvents cwd s,
      (∃ p, e = Event.writeFile p) ∨ ∃ n, e = Event.stepStart n := by
  intro e he
  by_cases h : s = "train_random_forest" <;> simp [blockEvents, h] at he
  · rcases he with h1 | h1
    · exact Or.inl ⟨_, h1⟩
    · exact Or.inr ⟨_, h1⟩
  · exact Or.inr ⟨_, he⟩

/-- Every event emitted inside the block sequence is a file write or a step
invocation: directory creation and removal happen only at the bracket. -/
theorem runSeq_events (fails : String → Bool) (cwd : String) (order : List String) :
    ∀ e ∈ (runSeq fails cwd order).1,
      (∃ p, e = Event.writeFile p) ∨ ∃ n, e = Event.stepStart n := by
  induction order with
  | nil => intro e he; simp [runSeq] at he
  | cons s rest ih =>
    intro e he
    by_cases h : fails s
    · rw [runSeq, if_pos h] at he
      exact blockEvents_shape cwd s e he
    · rw [runSeq, if_neg h] at he
      rcases List.mem_append.mp he with h1 | h1
      · exact blockEvents_shape cwd s e h1
      · exact ih e h1

/-- With no failures, the block sequence emits the events of each selected
block in order. -/
theorem runSeq_noFail (cwd : String) (order : List String) :
    (runSeq (fun _ => false) cwd order).1 = order.flatMap (blockEvents cwd) := by
  induction order with
  | nil => rfl
  | cons s rest ih => simp [runSeq, ih]

theorem dumpPairs_length (m : List (String × JVal)) :
    m.length ≤ (dumpPairs m).length := by
  induction m with
  | nil => simp [dumpPairs]
  | cons a rest ih =>
    obtain ⟨k, v⟩ := a
    cases rest with
    | nil => simp [dumpPairs]
    | cons b rs =>
      rw [dumpPairs]
      simp only [List.length_cons] at ih ⊢
      omega

theorem parseVal_dump (v : JVal) : parseVal (dumpVal v) = some v := by
  cases v <;> rfl

/-- Parsing the serialized members of a nonempty flat object recovers
exactly the original pairs, leaving the trailing tokens untouched. -/
theorem parsePairs_dump (m : List (String × JVal)) :
    ∀ fuel, m ≠ [] → m.length ≤ fuel →
      parsePairs fuel (dumpPairs m ++ [JTok.rbrace]) = some (m, [JTok.rbrace]) := by
  induction m with
  | nil => intro fuel h; exact absurd rfl h
  | cons a rest ih =>
    intro fuel _ hlen
    obtain ⟨k, v⟩ := a
    cases fuel with
    | zero => simp at hlen
    | succ f =>
      cases rest with
      | nil => simp [dumpPairs, parsePairs, parseVal_dump]
      | cons b rs =>
        have hne : (b :: rs) ≠ ([] : List (String × JVal)) := by simp
        have hlen2 : (b :: rs).length ≤ f := by
          simp only [List.length_cons] at hlen ⊢; omega
        simp [dumpPairs, parsePairs, parseVal_dump, ih f hne hlen2]

/-- Round trip of the flat JSON document model: deserializing a serialized
mapping reproduces it exactly. -/
theorem loads_dumpObj (m : List (String × JVal)) : loads (dumpObj m) = some m := by
  match m with
  | [] => rfl
  | (k, v) :: rest =>
    have hne : (k, v) :: rest ≠ ([] : List (String × JVal)) := by simp
    have hlen : ((k, v) :: rest).length
        ≤ (dumpPairs ((k, v) :: rest) ++ [JTok.rbrace]).length := by
      have h2 := dumpPairs_length ((k, v) :: rest)
      simp only [List.length_append, List.length_cons, List.length_nil] at h2 ⊢
      omega
    have h := parsePairs_dump ((k, v) :: rest)
      (dumpPairs ((k, v) :: rest) ++ [JTok.rbrace]).length hne hlen
    have hshape : ∃ t, dumpPairs ((k, v) :: rest)
        = JTok.tstr k :: JTok.colon :: dumpVal v :: t := by
      cases rest with
      | nil => exact ⟨[], rfl⟩
      | cons b rs => exact ⟨_, rfl⟩
    obtain ⟨t, ht⟩ := hshape
    have hnr : dumpPairs ((k, v) :: rest) ++ [JTok.rbrace] ≠ [JTok.rbrace] := by
      rw [ht]; simp
    rw [dumpObj]
    show (if dumpPairs ((k, v) :: rest) ++ [JTok.rbrace] = [JTok.rbrace] then
        some ([] : List (String × JVal))
      else
        match parsePairs (dumpPairs ((k, v) :: rest) ++ [JTok.rbrace]).length
            (dumpPairs ((k, v) :: rest) ++ [JTok.rbrace]) with
        | some (ps, [JTok.rbrace]) => some ps
        | _ => none) = some ((k, v) :: rest)
    rw [if_neg hnr, h]

/-- Claim C1: for every requested subset string, the steps the driver
executes form a sublist (subset in canonical order) of the registry
sequence; the executed sequence depends only on which tokens the request
contains, not on their order; and requesting `"data_split,download"`
executes `download` before `data_split`. -/
theorem go_canonical_order (fails : String → Bool) (cwd tmp sp₁ sp₂ : String)
    (h : ∀ t, t ∈ active_steps sp₁ ↔ t ∈ active_steps sp₂) :
    List.Sublist (startedOf (goTrace fails cwd tmp sp₁).1) registry ∧
    startedOf (goTrace fails cwd tmp sp₁).1 = startedOf (goTrace fails cwd tmp sp₂).1 ∧
    startedOf (goTrace (fun _ => false) cwd tmp "data_split,download").1
      = ["download", "data_split"] := by
  refine ⟨go_started_sublist fails cwd tmp sp₁, ?_, ?_⟩
  · have hb : bodyOrder (active_steps sp₁) = bodyOrder (active_steps sp₂) := by
      apply List.filter_congr
      intro x _
      simp [h x]
    rw [goTrace_started, goTrace_started, hb]
  · rw [go_started_noFail]
    decide

/-- Witness for C1 at the concrete request of its example: the two token
orders produce the same executed sequence. -/
theorem go_canonical_order_witness :
    startedOf (goTrace (fun _ => false) "/o" "/t" "data_split,download").1
      = startedOf (goTrace (fun _ => false) "/o" "/t" "download,data_split").1 :=
  (go_canonical_order (fun _ => false) "/o" "/t" "data_split,download" "download,data_split"
    (by
      have h1 : active_steps "data_split,download" = ["data_split", "download"] := by decide
      have h2 : active_steps "download,data_split" = ["download", "data_split"] := by decide
      intro t
      rw [h1, h2]
      simp [List.mem_cons, or_comm])).2.1

/-- Claim C2 as stated is refuted: on the request
`"download,nonexistent_step"` the driver raises no error, executes the
`download` step, and the invocation succeeds — the unknown name is
silently ignored, and a step does run. -/
theorem unknown_step_counterexample :
    startedOf (goTrace (fun _ => false) "/o" "/t" "download,nonexistent_step").1
      = ["download"] ∧
    (goTrace (fun _ => false) "/o" "/t" "download,nonexistent_step").2 = true := by
  decide

/-- Claim C2 amended: requested names not in the registry are silently
ignored. Every step the driver starts is a registry name that was
requested, and the outcome of the invocation is determined by the
selected registry steps alone — an unknown name never causes an error. -/
theorem unknown_steps_ignored (fails : String → Bool) (cwd tmp sp : String) :
    (∀ s, s ∈ startedOf (goTrace fails cwd tmp sp).1 → s ∈ registry ∧ s ∈ active_steps sp) ∧
    (goTrace fails cwd tmp sp).2 = (bodyOrder (active_steps sp)).all (fun s => !fails s) := by
  constructor
  · intro s hs
    rw [goTrace_started, runSeq_started] at hs
    have hmem : s ∈ bodyOrder (active_steps sp) :=
      (takeDrop_sublist _ _).subset hs
    have h2 := List.mem_filter.mp hmem
    exact ⟨h2.1, of_decide_eq_true h2.2⟩
  · rw [goTrace_ok, runSeq_ok]

/-- Witness for C2 amended at the request of the counterexample. -/
theorem unknown_steps_ignored_witness :
    "download" ∈ registry ∧ "download" ∈ active_steps "download,nonexistent_step" :=
  (unknown_steps_ignored (fun _ => false) "/o" "/t" "download,nonexistent_step").1
    "download" (by decide)

/-- Claim C3: the sentinel `"all"` selects exactly the five default steps
and excludes `test_regression_model`; requesting `"test_regression_model"`
executes only that step. -/
theorem all_selection_spec :
    active_steps "all"
      = ["download", "basic_cleaning", "data_check", "data_split", "train_random_forest"] ∧
    "test_regression_model" ∉ active_steps "all" ∧
    startedOf (goTrace (fun _ => false) "/o" "/t" "all").1 = _steps ∧
    startedOf (goTrace (fun _ => false) "/o" "/t" "test_regression_model").1
      = ["test_regression_model"] := by
  decide

/-- Claim C6: every driver invocation opens with the creation of the
temporary directory and closes with its removal, on the success path and
on every failure path alike; no event in between touches the directory
bracket, and no file under the directory survives the invocation. -/
theorem tmpdir_lifecycle (fails : String → Bool) (cwd tmp sp : String) :
    ∃ mid, (goTrace fails cwd tmp sp).1
        = Event.tmpCreate tmp :: mid ++ [Event.tmpRemove tmp]
      ∧ (∀ e ∈ mid, ∀ d, e ≠ Event.tmpCreate d ∧ e ≠ Event.tmpRemove d)
      ∧ (∀ p ∈ filesAfter (goTrace fails cwd tmp sp).1 tmp, isUnder tmp p = false) := by
  refine ⟨(runSeq fails cwd (bodyOrder (active_steps sp))).1, rfl, ?_, ?_⟩
  · intro e he d
    rcases runSeq_events fails cwd _ e he with ⟨p, rfl⟩ | ⟨n, rfl⟩ <;>
      exact ⟨by simp, by simp⟩
  · intro p hp
    have h2 := (List.mem_filter.mp hp).2
    simpa using h2

/-- Witness for C6: the hyperparameter side file of a concrete invocation
is among the surviving files, and indeed lies outside the directory. -/
theorem tmpdir_lifecycle_witness :
    isUnder "/t" (rf_config_path "/o") = false :=
  (tmpdir_lifecycle (fun _ => false) "/o" "/t" "train_random_forest").choose_spec.2.2
    (rf_config_path "/o") (by decide)

/-- Claim C7: the started steps are exactly the selected steps up to and
including the first failing one — nothing runs past a failure, there is no
retry and no skipping; the invocation succeeds exactly when no selected
step fails; and a failing step is always the last step started. -/
theorem failure_halts (fails : String → Bool) (cwd tmp sp : String) :
    startedOf (goTrace fails cwd tmp sp).1
      = (bodyOrder (active_steps sp)).takeWhile (fun s => !fails s)
        ++ ((bodyOrder (active_steps sp)).dropWhile (fun s => !fails s)).take 1 ∧
    (goTrace fails cwd tmp sp).2 = (bodyOrder (active_steps sp)).all (fun s => !fails s) ∧
    ∀ s, s ∈ startedOf (goTrace fails cwd tmp sp).1 → fails s = true →
      (startedOf (goTrace fails cwd tmp sp).1).getLast? = some s := by
  have hst : startedOf (goTrace fails cwd tmp sp).1
      = (bodyOrder (active_steps sp)).takeWhile (fun s => !fails s)
        ++ ((bodyOrder (active_steps sp)).dropWhile (fun s => !fails s)).take 1 := by
    rw [goTrace_started, runSeq_started]
  refine ⟨hst, by rw [goTrace_ok, runSeq_ok], ?_⟩
  intro s hs hf
  rw [hst] at hs ⊢
  rcases List.mem_append.mp hs with h1 | h1
  · have := List.mem_takeWhile_imp h1
    simp [hf] at this
  · rcases hd : (bodyOrder (active_steps sp)).dropWhile (fun s => !fails s) with _ | ⟨a, t⟩
    · rw [hd] at h1
      simp at h1
    · rw [hd] at h1
      simp only [List.take_succ_cons, List.take_zero] at h1 ⊢
      have hsa : s = a := by simpa using h1
      rw [List.getLast?_append_cons]
      simp [hsa]

/-- Witness for C7: with an oracle failing `basic_cleaning`, the failing
step is the last one started in the `"all"` invocation. -/
theorem failure_halts_witness :
    (startedOf (goTrace (fun s => s == "basic_cleaning") "/o" "/t" "all").1).getLast?
      = some "basic_cleaning" :=
  (failure_halts (fun s => s == "basic_cleaning") "/o" "/t" "all").2.2 "basic_cleaning"
    (by decide) (by decide)

/-- Claim C10: no step is ever started twice in one invocation, whatever
the requested string and the failure pattern — execution is one membership
test per registry entry — and the duplicated request
`"download,download"` runs `download` exactly once. -/
theorem step_at_most_once (fails : String → Bool) (cwd tmp sp : String) :
    (startedOf (goTrace fails cwd tmp sp).1).Nodup ∧
    startedOf (goTrace (fun _ => false) cwd tmp "download,download").1 = ["download"] := by
  constructor
  · exact (go_started_sublist fails cwd tmp sp).nodup (by decide)
  · rw [go_started_noFail]
    decide

/-- Claim C4 as stated is refuted: `os.path.abspath("rf_config.json")`
resolves against the working directory, not against the temporary
directory (`go` never changes directory into it, and the freshly created
empty temporary directory cannot contain the pre-existing working
directory). At a concrete invocation of only `train_random_forest`, the
hyperparameter file is written at a path that is not under the temporary
directory, and it is still present after the invocation ends. -/
theorem rf_config_location_counterexample :
    isUnder "/tmp/tmpa1b2" (rf_config_path "/home/user/outputs/run1") = false ∧
    Event.writeFile (rf_config_path "/home/user/outputs/run1")
      ∈ (goTrace (fun _ => false) "/home/user/outputs/run1" "/tmp/tmpa1b2"
          "train_random_forest").1 ∧
    rf_config_path "/home/user/outputs/run1"
      ∈ filesAfter (goTrace (fun _ => false) "/home/user/outputs/run1" "/tmp/tmpa1b2"
          "train_random_forest").1 "/tmp/tmpa1b2" := by
  decide

/-- Claim C4 amended: when `train_random_forest` is selected, the
hyperparameter block is serialized to `rf_config.json` resolved against
the working directory; that absolute path (not the values) is passed as
the `rf_config` parameter; no other step receives an `rf_config`
parameter; and whenever the path is outside the temporary directory (as
it is in reality), the file is still present after the invocation ends. -/
theorem rf_config_amended (c : Config) (cwd tmp sp : String)
    (hsel : "train_random_forest" ∈ active_steps sp) :
    Event.writeFile (rf_config_path cwd) ∈ (goTrace (fun _ => false) cwd tmp sp).1 ∧
    ("rf_config", PVal.lit (rf_config_path cwd))
      ∈ stepParams c cwd "train_random_forest" ∧
    (∀ s, s ∈ registry → s ≠ "train_random_forest" →
      ∀ v, ("rf_config", v) ∉ stepParams c cwd s) ∧
    (isUnder tmp (rf_config_path cwd) = false →
      rf_config_path cwd ∈ filesAfter (goTrace (fun _ => false) cwd tmp sp).1 tmp) := by
  have hbody : "train_random_forest" ∈ bodyOrder (active_steps sp) := by
    apply List.mem_filter.mpr
    exact ⟨by decide, decide_eq_true hsel⟩
  have hwr : Event.writeFile (rf_config_path cwd)
      ∈ (goTrace (fun _ => false) cwd tmp sp).1 := by
    show Event.writeFile (rf_config_path cwd)
      ∈ Event.tmpCreate tmp ::
          (runSeq (fun _ => false) cwd (bodyOrder (active_steps sp))).1
        ++ [Event.tmpRemove tmp]
    rw [runSeq_noFail]
    apply List.mem_cons_of_mem
    apply List.mem_append_left
    apply List.mem_flatMap.mpr
    refine ⟨"train_random_forest", hbody, ?_⟩
    simp [blockEvents]
  refine ⟨hwr, by simp [stepParams], ?_, ?_⟩
  · intro s hs hne v
    fin_cases hs <;> simp [stepParams] at hne ⊢
  · intro hout
    apply List.mem_filter.mpr
    constructor
    · apply List.mem_filterMap.mpr
      exact ⟨Event.writeFile (rf_config_path cwd), hwr, rfl⟩
    · simp [hout]

/-- Witness for C4 amended: at a concrete invocation the surviving side
file is observed at the working-directory path. -/
theorem rf_config_amended_witness :
    rf_config_path "/o" ∈ filesAfter
      (goTrace (fun _ => false) "/o" "/t" "train_random_forest").1 "/t" :=
  (rf_config_amended cfg0 "/o" "/t" "train_random_forest" (by decide)).2.2.2 (by decide)

/-- Claim C5: deserializing the written hyperparameter side file
reproduces the `modeling.random_forest` mapping exactly — no extra and no
missing keys. -/
theorem rf_side_file_roundtrip (c : Config) :
    loads (rfFileContent c) = some c.modeling_random_forest :=
  loads_dumpObj c.modeling_random_forest

/-- Claim C8 as stated is refuted: `download` is a registry step, but its
block calls `mlflow.run` directly, with no named-run wrapper at all. -/
theorem run_name_counterexample :
    "download" ∈ registry ∧ stepRunName "download" = none := by
  decide

/-- Claim C8 amended: every registry step except `download` is wrapped in
a named run whose name equals the step name; the `download` invocation has
no named-run wrapper. -/
theorem run_name_amended (s : String) (hs : s ∈ registry) (hne : s ≠ "download") :
    stepRunName s = some s := by
  fin_cases hs
  · exact absurd rfl hne
  all_goals rfl

/-- Witness for C8 amended at the `basic_cleaning` step. -/
theorem run_name_amended_witness :
    stepRunName "basic_cleaning" = some "basic_cleaning" :=
  run_name_amended "basic_cleaning" (by decide) (by decide)

/-- Claim C9 as stated is refuted: at a configuration with the integer
value 10 for `etl.min_price`, the `basic_cleaning` parameter set carries
that value uncoerced — it is not a string at the point of invocation. -/
theorem coercion_counterexample :
    ("min_price", PVal.raw (CVal.i 10)) ∈ stepParams cfg0 "/o" "basic_cleaning" ∧
    isStringValued (PVal.raw (CVal.i 10)) = false := by
  decide

/-- Claim C9 amended: the `str(...)` coercion is applied exactly to
`modeling.test_size`, `modeling.random_seed`, `modeling.val_size` and
`modeling.max_tfidf_features`; the values of `etl.sample`,
`etl.min_price`, `etl.max_price` and `data_check.kl_threshold` are placed
in their parameter sets unconverted. -/
theorem coercion_amended (c : Config) (cwd : String) :
    ("test_size", PVal.coerced c.modeling_test_size)
      ∈ stepParams c cwd "data_split" ∧
    ("random_seed", PVal.coerced c.modeling_random_seed)
      ∈ stepParams c cwd "data_split" ∧
    ("val_size", PVal.coerced c.modeling_val_size)
      ∈ stepParams c cwd "train_random_forest" ∧
    ("random_seed", PVal.coerced c.modeling_random_seed)
      ∈ stepParams c cwd "train_random_forest" ∧
    ("max_tfidf_features", PVal.coerced c.modeling_max_tfidf_features)
      ∈ stepParams c cwd "train_random_forest" ∧
    ("sample", PVal.raw c.etl_sample) ∈ stepParams c cwd "download" ∧
    ("min_price", PVal.raw c.etl_min_price) ∈ stepParams c cwd "basic_cleaning" ∧
    ("max_price", PVal.raw c.etl_max_price) ∈ stepParams c cwd "basic_cleaning" ∧
    ("kl_threshold", PVal.raw c.data_check_kl_threshold)
      ∈ stepParams c cwd "data_check" ∧
    ("min_price", PVal.raw c.etl_min_price) ∈ stepParams c cwd "data_check" := by
  refine ⟨?_, ?_, ?_, ?_, ?_, ?_, ?_, ?_, ?_, ?_⟩ <;> simp [stepParams]

end Pipeline
